import Mathlib

/-!
Shallow embedding of the versioned relational query-construction layer of
`store/postgres/src/relational/dsl.rs` (graph-node).  SQL fragments produced
by the `walk_ast` implementations are modelled as lists of `SqlElem`
(raw SQL text, quoted identifiers, and typed bind parameters), mirroring the
sequence of `push_sql` / `push_identifier` / `push_bind_param` calls in the
source.  Machine integers (`BlockNumber = i32`, `CausalityRegion = i32`) are
modelled as `Int`; the i32 range enters theorems as explicit hypotheses where
it matters.
-/

/-- Diesel SQL wire types used by the dsl module:
`Bool, Numeric, Binary, Integer, BigInt, Timestamptz, Text`. -/
inductive SqlWireType
  | bool
  | numeric
  | binary
  | integer
  | bigInt
  | timestamptz
  | text
deriving DecidableEq, Repr

/-- A value handed to `push_bind_param`. -/
inductive BindValue
  | str (s : String)
  | bytes (b : List Nat)
  | int (i : Int)
deriving DecidableEq, Repr

/-- One element of a rendered SQL fragment: raw SQL from `push_sql`, a quoted
identifier from `push_identifier`, or a typed bind parameter from
`push_bind_param`. -/
inductive SqlElem
  | sql (s : String)
  | ident (s : String)
  | bind (ty : SqlWireType) (v : BindValue)
deriving DecidableEq, Repr

/-- `ColumnType` from `relational/mod.rs` (the payloads of `TSVector` and the
sql-name payload of `Enum` are kept only where the dsl code inspects them;
`TSVector` carries a fulltext config the dsl never reads). -/
inductive ColumnType
  | boolean
  | bigDecimal
  | bigInt
  | bytes
  | int
  | int8
  | timestamp
  | string
  | tsVector
  | enum (name : String)
deriving DecidableEq, Repr

/-- `super::Column` (`RelColumn` in dsl.rs): name, type and the
list/nullable flags the dsl reads through `is_list()` / `is_nullable()`. -/
structure RelColumn where
  name : String
  column_type : ColumnType
  is_list : Bool
  is_nullable : Bool
deriving DecidableEq, Repr

/-- `Column::pseudo_column(name, ty)`: a non-list, non-nullable column. -/
def RelColumn.pseudo_column (name : String) (ct : ColumnType) : RelColumn :=
  ⟨name, ct, false, false⟩

/-- The `__typename` constant. -/
def TYPENAME : String := "__typename"

/-- The GraphQL id field name (`ID` from `graph::data::store`). -/
def ID : String := "id"

/-- Modelled from the spec: `PARENT_ID` is declared in
`relational_queries.rs`, which is not among the included sources; the spec
only says the parent-id pseudo-column is projected as an extra pseudo-column
for parent/child joins.  Its concrete physical name is immaterial to the
claims; graph-node uses a reserved name outside the attribute namespace. -/
def PARENT_ID : String := "g$parent_id"

/-- Modelled from the spec: the naming conventions give the single-version
column the bit-exact name `block` (`BLOCK_COLUMN` lives in
`relational/mod.rs`, outside the included sources). -/
def BLOCK_COLUMN : String := "block"

/-- Modelled from the spec: the range column has the bit-exact name
`block_range` (`BLOCK_RANGE_COLUMN` lives in `relational/mod.rs`). -/
def BLOCK_RANGE_COLUMN : String := "block_range"

def TYPENAME_COL : RelColumn := RelColumn.pseudo_column TYPENAME ColumnType.string

def VID_COL : RelColumn := RelColumn.pseudo_column "vid" ColumnType.int8

def BLOCK_COL : RelColumn := RelColumn.pseudo_column BLOCK_COLUMN ColumnType.int8

/-- The column type is a placeholder exactly as in the source (`in4range`
cannot be deserialized). -/
def BLOCK_RANGE_COL : RelColumn :=
  RelColumn.pseudo_column BLOCK_RANGE_COLUMN ColumnType.bytes

def PARENT_STRING_COL : RelColumn := RelColumn.pseudo_column PARENT_ID ColumnType.string

def PARENT_BYTES_COL : RelColumn := RelColumn.pseudo_column PARENT_ID ColumnType.bytes

def PARENT_INT_COL : RelColumn := RelColumn.pseudo_column PARENT_ID ColumnType.int8

/-- `META_COLS = [&*TYPENAME_COL, &*VID_COL]`. -/
def META_COLS : List RelColumn := [TYPENAME_COL, VID_COL]

/-- `BLOCK_NUMBER_MAX = i32::MAX` (`BlockNumber` is a signed 32-bit int). -/
def BLOCK_NUMBER_MAX : Int := 2147483647

/-- `super::Table` as read by dsl.rs: namespace (`nsp`), SQL name, the entity
type name reached through `object.typename()`, the qualified name used by the
enum cast, the declared attribute columns, the primary key (the spec
guarantees exactly one primary-key column among `columns`), and the three
flags `immutable`, `is_account_like`, `has_causality_region`. -/
structure Table where
  nsp : String
  name : String
  typename : String
  qualified_name : String
  columns : List RelColumn
  primary_key : RelColumn
  immutable : Bool
  is_account_like : Bool
  has_causality_region : Bool
deriving DecidableEq, Repr

/-- `Id` from `graph::data::store` (renamed: `Id` is taken by the Lean
prelude): tagged union of the three physical id representations. -/
inductive EntityId
  | string (s : String)
  | bytes (b : List Nat)
  | int8 (i : Int)
deriving DecidableEq, Repr

/-- `IdType`: the tag of `Id`, used for the parent-id pseudo-column choice. -/
inductive IdType
  | string
  | bytes
  | int8
deriving DecidableEq, Repr

/-- `AttributeNames` from `graph::components::store`.  The source type holds
a `BTreeSet<Word>`; the set is modelled as the list of its elements (the
planner deduplicates and sorts, so the modelling order is irrelevant). -/
inductive AttributeNames
  | all
  | select (names : List String)
deriving DecidableEq, Repr

/-- `StoreError` restricted to the one variant this module can produce
(`column_for_field` returns `StoreError::UnknownField`). -/
inductive StoreError
  | unknownField (name : String)
deriving DecidableEq, Repr

/-- `impl QueryFragment for Table`: `push_identifier(nsp)`, `push_sql(".")`,
`push_identifier(name)`. -/
def tableWalkAst (t : Table) : List SqlElem :=
  [SqlElem.ident t.nsp, SqlElem.sql ".", SqlElem.ident t.name]

/-- `Table::column(name)`: search the declared columns, then `META_COLS`. -/
def Table.column (t : Table) (name : String) : Option RelColumn :=
  (t.columns ++ META_COLS).find? (fun c => c.name == name)

/-- `IdEq` (the `IdentityEquals` builder). -/
structure IdEq where
  table : Table
  id : EntityId
deriving DecidableEq, Repr

/-- `Table::id_eq`. -/
def Table.id_eq (t : Table) (id : EntityId) : IdEq := ⟨t, id⟩

/-- `impl QueryFragment<Pg> for IdEq`: table fragment, `.id = `, then a bind
parameter whose wire type is chosen by the `Id` variant. -/
def IdEq.walk_ast (e : IdEq) : List SqlElem :=
  tableWalkAst e.table ++
    [SqlElem.sql ".id = ",
     match e.id with
     | EntityId.string s => SqlElem.bind SqlWireType.text (BindValue.str s)
     | EntityId.bytes b => SqlElem.bind SqlWireType.binary (BindValue.bytes b)
     | EntityId.int8 i => SqlElem.bind SqlWireType.bigInt (BindValue.int i)]

/-- The wire type the claim says each `Id` variant binds with. -/
def idWireType : EntityId → SqlWireType
  | EntityId.string _ => SqlWireType.text
  | EntityId.bytes _ => SqlWireType.binary
  | EntityId.int8 _ => SqlWireType.bigInt

/-- The payload each `Id` variant binds. -/
def idBindValue : EntityId → BindValue
  | EntityId.string s => BindValue.str s
  | EntityId.bytes b => BindValue.bytes b
  | EntityId.int8 i => BindValue.int i

/-- `AtBlock` (the `PointInTimeVisible` builder). -/
structure AtBlock where
  table : Table
  block : Int
  filters_by_id : Bool
deriving DecidableEq, Repr

/-- `Table::at_block`: `filters_by_id` starts out `false`. -/
def Table.at_block (t : Table) (block : Int) : AtBlock := ⟨t, block, false⟩

/-- The builder method `AtBlock::filters_by_id(self)` (sets the flag). -/
def AtBlock.set_filters_by_id (a : AtBlock) : AtBlock :=
  ⟨a.table, a.block, true⟩

/-- The condition under which the mutable branch of `AtBlock::walk_ast`
appends the two planner-hint conjuncts:
`is_account_like && block < BLOCK_NUMBER_MAX && (!filters_by_id || use_brin_for_all_query_types)`. -/
def AtBlock.appends_hints (a : AtBlock) (use_brin_for_all_query_types : Bool) : Bool :=
  a.table.is_account_like && decide (a.block < BLOCK_NUMBER_MAX) &&
    (!a.filters_by_id || use_brin_for_all_query_types)

/-- `impl QueryFragment<Pg> for AtBlock`.  The global
`ENV_VARS.store.use_brin_for_all_query_types` flag is passed explicitly. -/
def AtBlock.walk_ast (a : AtBlock) (use_brin_for_all_query_types : Bool) : List SqlElem :=
  if a.table.immutable then
    if a.block = BLOCK_NUMBER_MAX then
      [SqlElem.sql "true"]
    else
      tableWalkAst a.table ++
        [SqlElem.sql ".", SqlElem.ident BLOCK_COLUMN, SqlElem.sql " <= ",
         SqlElem.bind SqlWireType.integer (BindValue.int a.block)]
  else
    let base := tableWalkAst a.table ++
      [SqlElem.sql ".", SqlElem.ident BLOCK_RANGE_COLUMN, SqlElem.sql " @> ",
       SqlElem.bind SqlWireType.integer (BindValue.int a.block)]
    if a.appends_hints use_brin_for_all_query_types then
      base ++
        [SqlElem.sql " and coalesce(upper(", SqlElem.ident BLOCK_RANGE_COLUMN,
         SqlElem.sql "), 2147483647) > ",
         SqlElem.bind SqlWireType.integer (BindValue.int a.block),
         SqlElem.sql " and lower(", SqlElem.ident BLOCK_RANGE_COLUMN,
         SqlElem.sql ") <= ",
         SqlElem.bind SqlWireType.integer (BindValue.int a.block)]
    else
      base

/-- `BelongsToCausalityRegion` builder. -/
structure BelongsToCausalityRegion where
  table : Table
  cr : Int
deriving DecidableEq, Repr

/-- `Table::belongs_to_causality_region`. -/
def Table.belongs_to_causality_region (t : Table) (cr : Int) : BelongsToCausalityRegion :=
  ⟨t, cr⟩

/-- `impl QueryFragment<Pg> for BelongsToCausalityRegion`. -/
def BelongsToCausalityRegion.walk_ast (e : BelongsToCausalityRegion) : List SqlElem :=
  if e.table.has_causality_region then
    tableWalkAst e.table ++
      [SqlElem.sql ".causality_region", SqlElem.sql " = ",
       SqlElem.bind SqlWireType.integer (BindValue.int e.cr)]
  else
    [SqlElem.sql "true"]

/-- Insert a string into a lexicographically sorted list (helper for
modelling `names.sort()`). -/
def insertStr (s : String) : List String → List String
  | [] => [s]
  | t :: ts => if s ≤ t then s :: t :: ts else t :: insertStr s ts

/-- Insertion sort by the lexicographic order on strings, modelling
`Vec::sort` on the collected attribute names. -/
def sortStrs : List String → List String
  | [] => []
  | s :: ss => insertStr s (sortStrs ss)

/-- Modelled from the spec: `Table::column_for_field` lives in
`relational/mod.rs`, outside the included sources.  Per the spec, column
lookup searches the declared columns first, then the fixed pseudo-columns
(type-name and version/serial), and an unresolvable name is returned as a
typed `UnknownColumn` lookup failure. -/
def column_for_field (t : Table) (name : String) : Except StoreError RelColumn :=
  match (t.columns ++ META_COLS).find? (fun c => c.name == name) with
  | some c => Except.ok c
  | none => Except.error (StoreError.unknownField name)

/-- The resolution loop of `selected_columns` over the sorted attribute
names: `for name in names { cols.push(self.0.column_for_field(&name)?) }`. -/
def resolveCols (t : Table) : List String → Except StoreError (List RelColumn)
  | [] => Except.ok []
  | n :: ns =>
    match column_for_field t n with
    | Except.ok c => (resolveCols t ns).map (fun cs => c :: cs)
    | Except.error e => Except.error e

/-- The trailing pushes of `selected_columns`, shared by both request
branches: the parent-id pseudo-column (gated on `WITH_INTERNAL_KEYS` and the
supplied parent id kind) and the system columns (gated on
`WITH_SYSTEM_COLUMNS`, with the block column for immutable tables and the
block-range column otherwise). -/
def appendTail (t : Table) (with_internal_keys with_system_columns : Bool)
    (parent_type : Option IdType) (cols : List RelColumn) : List RelColumn :=
  let cols := if with_internal_keys then
      cols ++ (match parent_type with
        | some IdType.string => [PARENT_STRING_COL]
        | some IdType.bytes => [PARENT_BYTES_COL]
        | some IdType.int8 => [PARENT_INT_COL]
        | none => [])
    else cols
  if with_system_columns then
    cols ++ VID_COL :: (if t.immutable then [BLOCK_COL] else [BLOCK_RANGE_COL])
  else cols

/-- `Table::selected_columns::<T>`.  The two associated constants of the
`FromOidRow` decoding contract (`T::WITH_INTERNAL_KEYS`,
`T::WITH_SYSTEM_COLUMNS`) are passed as explicit flags.  The `BTreeSet`
holding a `Select` request is modelled by deduplicating the name list before
the source's filter/sort steps. -/
def selected_columns (t : Table) (with_internal_keys with_system_columns : Bool)
    (column_names : AttributeNames) (parent_type : Option IdType) :
    Except StoreError (List RelColumn) :=
  let cols0 := if with_internal_keys then [TYPENAME_COL] else []
  match column_names with
  | AttributeNames.all => Except.ok
      (appendTail t with_internal_keys with_system_columns parent_type
        (cols0 ++ t.columns))
  | AttributeNames.select names =>
    let ns := sortStrs ((names.dedup).filter (fun n => n != ID))
    match resolveCols t ns with
    | Except.ok rs => Except.ok
        (appendTail t with_internal_keys with_system_columns parent_type
          (cols0 ++ t.primary_key :: rs))
    | Except.error e => Except.error e

/-- The four wrapper combinations of `Nullable` and `Array` around the base
scalar type, keyed by `(is_list, is_nullable)`. -/
inductive FieldWrap
  | plain
  | nullable
  | array
  | nullableArray
deriving DecidableEq, Repr

/-- The `match (column.is_list(), column.is_nullable())` dispatch shared by
`add_field` and `add_enum_field`. -/
def fieldWrap (is_list is_nullable : Bool) : FieldWrap :=
  match is_list, is_nullable with
  | true, true => FieldWrap.nullableArray
  | true, false => FieldWrap.array
  | false, true => FieldWrap.nullable
  | false, false => FieldWrap.plain

/-- One entry of the dynamic SELECT clause: the quoted type-name literal
(rendered as `'<typename>' as __typename`; the carried string is the entity
type name), a raw SQL cast expression (the enum path), or a typed column
reference. -/
inductive SelectEntry
  | typenameLiteral (typename : String)
  | rawCast (sqlText : String) (wrap : FieldWrap)
  | typedField (tableNsp tableName colName : String) (ty : SqlWireType) (wrap : FieldWrap)
deriving DecidableEq, Repr

/-- `add_field::<ST>` inside `select_cols`: resolve the column by name with
`Table::column` and add a typed field wrapped per the column's flags.  The
source calls `.unwrap()` on the lookup; a failed lookup (a panic) is
modelled as `none`. -/
def add_field (t : Table) (c : RelColumn) (st : SqlWireType) : Option SelectEntry :=
  (t.column c.name).map
    (fun c2 => SelectEntry.typedField t.nsp t.name c2.name st
      (fieldWrap c.is_list c.is_nullable))

/-- `add_enum_field` inside `select_cols`: a raw cast
`<qualified_name>.<column>::text` wrapped per the column's flags. -/
def add_enum_field (t : Table) (c : RelColumn) : SelectEntry :=
  SelectEntry.rawCast (t.qualified_name ++ "." ++ c.name ++ "::text")
    (fieldWrap c.is_list c.is_nullable)

/-- The per-column dispatch of the `for column in columns` loop of
`select_cols`: the type-name special case, then the `column_type` match. -/
def entryFor (t : Table) (c : RelColumn) : Option SelectEntry :=
  if c.name == TYPENAME_COL.name then
    some (SelectEntry.typenameLiteral t.typename)
  else
    match c.column_type with
    | ColumnType.boolean => add_field t c SqlWireType.bool
    | ColumnType.bigDecimal => add_field t c SqlWireType.numeric
    | ColumnType.bigInt => add_field t c SqlWireType.numeric
    | ColumnType.bytes => add_field t c SqlWireType.binary
    | ColumnType.int => add_field t c SqlWireType.integer
    | ColumnType.int8 => add_field t c SqlWireType.bigInt
    | ColumnType.timestamp => add_field t c SqlWireType.timestamptz
    | ColumnType.string => add_field t c SqlWireType.text
    | ColumnType.tsVector => add_field t c SqlWireType.text
    | ColumnType.enum _ => some (add_enum_field t c)

/-- `Table::select_cols`: one entry per column; a panic anywhere in the loop
(the `unwrap` in `add_field`) yields `none`. -/
def select_cols (t : Table) : List RelColumn → Option (List SelectEntry)
  | [] => some []
  | c :: cs =>
    match entryFor t c, select_cols t cs with
    | some e, some es => some (e :: es)
    | _, _ => none

/-- The fixed scalar mapping stated by the spec for non-enum columns:
Boolean to bool, BigDecimal and BigInt to numeric, Bytes to binary, Int to
32-bit integer, Int8 to 64-bit integer, Timestamp to timezone-aware
timestamp, String and FullTextIndex to text.  The `enum` case is never used
(`specEntry` takes the cast path first); it is mapped to text only to keep
the function total. -/
def scalarWireType : ColumnType → SqlWireType
  | ColumnType.boolean => SqlWireType.bool
  | ColumnType.bigDecimal => SqlWireType.numeric
  | ColumnType.bigInt => SqlWireType.numeric
  | ColumnType.bytes => SqlWireType.binary
  | ColumnType.int => SqlWireType.integer
  | ColumnType.int8 => SqlWireType.bigInt
  | ColumnType.timestamp => SqlWireType.timestamptz
  | ColumnType.string => SqlWireType.text
  | ColumnType.tsVector => SqlWireType.text
  | ColumnType.enum _ => SqlWireType.text

/-- The select-list entry the specification prescribes for a column: the
type-name literal for the synthetic column, the text cast for enum columns,
and a typed column reference through the fixed scalar mapping otherwise. -/
def specEntry (t : Table) (c : RelColumn) : SelectEntry :=
  if c.name == TYPENAME_COL.name then
    SelectEntry.typenameLiteral t.typename
  else
    match c.column_type with
    | ColumnType.enum _ =>
        SelectEntry.rawCast (t.qualified_name ++ "." ++ c.name ++ "::text")
          (fieldWrap c.is_list c.is_nullable)
    | k => SelectEntry.typedField t.nsp t.name c.name (scalarWireType k)
        (fieldWrap c.is_list c.is_nullable)

/-- Semantics of the Postgres range-containment test
`block_range @> block` for a stored half-open validity interval
`[lo, hi)` (`hi = none` meaning unbounded above). -/
def blockRangeContains (lo : Int) (hi : Option Int) (b : Int) : Prop :=
  lo ≤ b ∧ match hi with
    | some h => b < h
    | none => True

/-- Semantics of the two planner-hint conjuncts
`coalesce(upper(block_range), 2147483647) > block` and
`lower(block_range) <= block`. -/
def hintConjunctsHold (lo : Int) (hi : Option Int) (b : Int) : Prop :=
  (hi.getD BLOCK_NUMBER_MAX) > b ∧ lo ≤ b

/-- Truth value of the full mutable-table `AtBlock` predicate on a row with
validity interval `[lo, hi)`: the containment test, plus the hint conjuncts
exactly when `walk_ast` appends them. -/
def AtBlock.mutable_holds (a : AtBlock) (use_brin_for_all_query_types : Bool)
    (lo : Int) (hi : Option Int) : Prop :=
  blockRangeContains lo hi a.block ∧
    (a.appends_hints use_brin_for_all_query_types = true →
      hintConjunctsHold lo hi a.block)

/-- Truth value of the immutable-table `AtBlock` predicate on a row whose
version column holds `v`: the constant `true` when the requested block is
the sentinel, and `v <= block` otherwise. -/
def atBlockImmutableHolds (b v : Int) : Prop :=
  if b = BLOCK_NUMBER_MAX then True else v ≤ b

/-- The containment fragment the mutable branch always renders. -/
def containmentFrag (t : Table) (b : Int) : List SqlElem :=
  tableWalkAst t ++
    [SqlElem.sql ".", SqlElem.ident BLOCK_RANGE_COLUMN, SqlElem.sql " @> ",
     SqlElem.bind SqlWireType.integer (BindValue.int b)]

/-- The planner-hint fragment the mutable branch conditionally appends. -/
def hintFrag (b : Int) : List SqlElem :=
  [SqlElem.sql " and coalesce(upper(", SqlElem.ident BLOCK_RANGE_COLUMN,
   SqlElem.sql "), 2147483647) > ",
   SqlElem.bind SqlWireType.integer (BindValue.int b),
   SqlElem.sql " and lower(", SqlElem.ident BLOCK_RANGE_COLUMN,
   SqlElem.sql ") <= ",
   SqlElem.bind SqlWireType.integer (BindValue.int b)]

/-- The parent-id pseudo-column choice of step 3 of the planner. -/
def parentCols : Option IdType → List RelColumn
  | some IdType.string => [PARENT_STRING_COL]
  | some IdType.bytes => [PARENT_BYTES_COL]
  | some IdType.int8 => [PARENT_INT_COL]
  | none => []

/-- The system-column suffix of step 4 of the planner. -/
def systemCols (t : Table) : List RelColumn :=
  VID_COL :: (if t.immutable then [BLOCK_COL] else [BLOCK_RANGE_COL])

/-- A sample mutable, account-like table with a string primary key `id` and
one nullable string attribute `name`, used to evaluate the theorems on
concrete inputs. -/
def idColumn : RelColumn := ⟨"id", ColumnType.string, false, false⟩

def nameColumn : RelColumn := ⟨"name", ColumnType.string, false, true⟩

def tokenTable : Table :=
  ⟨"sgd1", "token", "Token", "sgd1.token", [idColumn, nameColumn], idColumn,
   false, true, false⟩

/-- A sample immutable table with only its primary key declared. -/
def blockTable : Table :=
  ⟨"sgd1", "block", "Block", "sgd1.block", [idColumn], idColumn,
   true, false, false⟩

theorem mem_insertStr {a s : String} {l : List String} :
    a ∈ insertStr s l ↔ a = s ∨ a ∈ l := by
  induction l with
  | nil => simp [insertStr]
  | cons t ts ih =>
    unfold insertStr
    split
    · simp
    · simp only [List.mem_cons, ih]
      tauto

theorem mem_sortStrs {a : String} {l : List String} : a ∈ sortStrs l ↔ a ∈ l := by
  induction l with
  | nil => simp [sortStrs]
  | cons s ss ih => simp [sortStrs, mem_insertStr, ih]

/-- Claim C7: for every table without causality-region support the
`BelongsToCausalityRegion` predicate renders the constant SQL `true` for
every region value, and for every table with the flag set it renders
`<table>.causality_region = cr` with the region bound as a 32-bit integer. -/
theorem belongs_to_causality_region_render (t : Table) (cr : Int) :
    (Table.belongs_to_causality_region t cr).walk_ast =
      if t.has_causality_region then
        tableWalkAst t ++
          [SqlElem.sql ".causality_region", SqlElem.sql " = ",
           SqlElem.bind SqlWireType.integer (BindValue.int cr)]
      else
        [SqlElem.sql "true"] := rfl

/-- Claim C8: `IdEq` renders `<table>.id = <bound-value>` where the bind wire
type is chosen from the `Id` variant (text for String, binary for Bytes,
64-bit integer for Int8).  The rendered fragment depends only on the table's
qualified name and the id value — the builder never consults the table's
declared id kind and never fails at render time, so agreement between the
two is a construction-time caller precondition. -/
theorem id_eq_render (t : Table) (id : EntityId) :
    (Table.id_eq t id).walk_ast =
      [SqlElem.ident t.nsp, SqlElem.sql ".", SqlElem.ident t.name,
       SqlElem.sql ".id = ", SqlElem.bind (idWireType id) (idBindValue id)] := by
  cases id <;> rfl

/-- Claim C10: the projection planner called with the `All` request always
returns `Ok`; no failure path exists outside `Select`-name resolution. -/
theorem selected_columns_all_infallible (t : Table) (wik wsc : Bool)
    (parent : Option IdType) :
    ∃ cols, selected_columns t wik wsc AttributeNames.all parent = Except.ok cols :=
  ⟨_, rfl⟩

/-- Claim C1: for every mutable table, block `b < BLOCK_NUMBER_MAX` and
half-open validity range `[lo, hi)` (`hi` possibly unbounded), the
point-in-time predicate with the planner-hint conjuncts appended whenever
`walk_ast` appends them is logically equivalent to the bare range-containment
test `lo <= b < hi`: the hints never change the truth value. -/
theorem at_block_hints_preserve_truth (t : Table) (b : Int) (fbi brin : Bool)
    (lo : Int) (hi : Option Int) (hb : b < BLOCK_NUMBER_MAX) :
    AtBlock.mutable_holds ⟨t, b, fbi⟩ brin lo hi ↔ blockRangeContains lo hi b := by
  unfold AtBlock.mutable_holds
  constructor
  · rintro ⟨h, _⟩
    exact h
  · intro h
    refine ⟨h, fun _ => ?_⟩
    unfold blockRangeContains at h
    unfold hintConjunctsHold
    cases hi with
    | none => exact ⟨hb, h.1⟩
    | some hUp =>
      refine ⟨?_, h.1⟩
      simpa using h.2

/-- Closed witness for claim C1 at a concrete table, block and range. -/
theorem at_block_hints_preserve_truth_witness :
    AtBlock.mutable_holds ⟨tokenTable, 100, false⟩ false 1 (some 50) ↔
      blockRangeContains 1 (some 50) 100 :=
  at_block_hints_preserve_truth tokenTable 100 false false 1 (some 50) (by decide)

/-- Claim C4: for every immutable table, `AtBlock` renders the constant SQL
`true` when the requested block is the sentinel `BLOCK_NUMBER_MAX`, and
otherwise renders `<table>.block <= b` with `b` bound as a 32-bit integer;
and on a row with version-column value `v` (within the i32 range) the
rendered predicate holds iff `v <= b`. -/
theorem at_block_immutable_spec (t : Table) (b v : Int) (fbi brin : Bool)
    (himm : t.immutable = true) (hv : v ≤ BLOCK_NUMBER_MAX) :
    (b = BLOCK_NUMBER_MAX → AtBlock.walk_ast ⟨t, b, fbi⟩ brin = [SqlElem.sql "true"]) ∧
    (b ≠ BLOCK_NUMBER_MAX → AtBlock.walk_ast ⟨t, b, fbi⟩ brin =
      tableWalkAst t ++
        [SqlElem.sql ".", SqlElem.ident BLOCK_COLUMN, SqlElem.sql " <= ",
         SqlElem.bind SqlWireType.integer (BindValue.int b)]) ∧
    (atBlockImmutableHolds b v ↔ v ≤ b) := by
  refine ⟨?_, ?_, ?_⟩
  · intro hb
    simp [AtBlock.walk_ast, himm, hb]
  · intro hb
    simp [AtBlock.walk_ast, himm, hb]
  · unfold atBlockImmutableHolds
    split
    · next hb =>
      subst hb
      exact ⟨fun _ => hv, fun _ => trivial⟩
    · exact Iff.rfl

/-- Closed witness for claim C4 at a concrete immutable table and block. -/
theorem at_block_immutable_spec_witness :
    (100 = BLOCK_NUMBER_MAX →
      AtBlock.walk_ast ⟨blockTable, 100, false⟩ false = [SqlElem.sql "true"]) ∧
    (100 ≠ BLOCK_NUMBER_MAX →
      AtBlock.walk_ast ⟨blockTable, 100, false⟩ false =
        tableWalkAst blockTable ++
          [SqlElem.sql ".", SqlElem.ident BLOCK_COLUMN, SqlElem.sql " <= ",
           SqlElem.bind SqlWireType.integer (BindValue.int 100)]) ∧
    (atBlockImmutableHolds 100 5 ↔ (5 : Int) ≤ 100) :=
  at_block_immutable_spec blockTable 100 5 false false rfl (by decide)

/-- Claim C2: for every mutable table the rendered predicate is the
containment test `<table>.block_range @> b`, followed by the two hint
conjuncts exactly when the table is account-like, `b` is not the unbounded
sentinel, and either no id filter narrows the predicate or the configuration
override forces the hints. -/
theorem at_block_mutable_render (t : Table) (b : Int) (fbi brin : Bool)
    (hmut : t.immutable = false) (hle : b ≤ BLOCK_NUMBER_MAX) :
    AtBlock.walk_ast ⟨t, b, fbi⟩ brin =
      containmentFrag t b ++
        (if t.is_account_like = true ∧ b ≠ BLOCK_NUMBER_MAX ∧
            (fbi = false ∨ brin = true)
         then hintFrag b else []) := by
  by_cases hP : t.is_account_like = true ∧ b ≠ BLOCK_NUMBER_MAX ∧ (fbi = false ∨ brin = true)
  · obtain ⟨h1, h2, h3⟩ := hP
    have hblt : b < BLOCK_NUMBER_MAX := lt_of_le_of_ne hle h2
    have hc : AtBlock.appends_hints ⟨t, b, fbi⟩ brin = true := by
      unfold AtBlock.appends_hints
      rcases h3 with h3 | h3 <;> simp [h1, hblt, h3]
    simp only [AtBlock.walk_ast, hmut, Bool.false_eq_true, if_false, hc, if_true,
      if_pos (And.intro h1 (And.intro h2 h3))]
    simp [containmentFrag, hintFrag, List.append_assoc]
  · have hc : AtBlock.appends_hints ⟨t, b, fbi⟩ brin = false := by
      unfold AtBlock.appends_hints
      by_contra hcc
      rw [Bool.not_eq_false] at hcc
      simp only [Bool.and_eq_true, Bool.or_eq_true, Bool.not_eq_true',
        decide_eq_true_eq] at hcc
      exact hP ⟨hcc.1.1, by omega, hcc.2⟩
    simp only [AtBlock.walk_ast, hmut, Bool.false_eq_true, if_false, hc,
      if_neg hP]
    simp [containmentFrag]

/-- Closed witness for claim C2: account-like table at block 100 with an id
filter present and no override renders only the containment test. -/
theorem at_block_mutable_render_witness :
    AtBlock.walk_ast ⟨tokenTable, 100, true⟩ false =
      containmentFrag tokenTable 100 ++
        (if tokenTable.is_account_like = true ∧ (100 : Int) ≠ BLOCK_NUMBER_MAX ∧
            (true = false ∨ false = true)
         then hintFrag 100 else []) :=
  at_block_mutable_render tokenTable 100 true false rfl (by decide)

theorem parentCols_match (parent : Option IdType) :
    (match parent with
      | some IdType.string => [PARENT_STRING_COL]
      | some IdType.bytes => [PARENT_BYTES_COL]
      | some IdType.int8 => [PARENT_INT_COL]
      | none => ([] : List RelColumn)) = parentCols parent := by
  cases parent with
  | none => rfl
  | some it => cases it <;> rfl

theorem appendTail_eq (t : Table) (wik wsc : Bool) (parent : Option IdType)
    (cs : List RelColumn) :
    appendTail t wik wsc parent cs =
      cs ++ (if wik then parentCols parent else []) ++
        (if wsc then systemCols t else []) := by
  unfold appendTail
  rw [parentCols_match]
  cases wik <;> cases wsc <;> simp [systemCols, List.append_assoc]

/-- Claim C3: the projection planner returns exactly the ordered list — the
synthetic type-name column first iff the contract needs internal keys; then
every declared column in declaration order for `All`, or the primary key
followed by the requested names with the id field removed, deduplicated and
sorted lexicographically, each resolved to a column, for `Select`; then the
parent-id pseudo-column matching the supplied parent id kind when the
contract needs internal keys; then, when the contract needs system columns,
the vid column followed by the block column (immutable) or the block-range
column (mutable). -/
theorem selected_columns_ordered_output (t : Table) (wik wsc : Bool)
    (req : AttributeNames) (parent : Option IdType) :
    selected_columns t wik wsc req parent =
      match req with
      | AttributeNames.all =>
          Except.ok ((if wik then [TYPENAME_COL] else []) ++ t.columns
            ++ (if wik then parentCols parent else [])
            ++ (if wsc then systemCols t else []))
      | AttributeNames.select names =>
          (resolveCols t (sortStrs ((names.dedup).filter (fun n => n != ID)))).map
            (fun rs => (if wik then [TYPENAME_COL] else []) ++ t.primary_key :: rs
              ++ (if wik then parentCols parent else [])
              ++ (if wsc then systemCols t else [])) := by
  cases req with
  | all => simp [selected_columns, appendTail_eq, List.append_assoc]
  | select names =>
    cases hres : resolveCols t (sortStrs ((names.dedup).filter (fun n => n != ID))) with
    | ok rs => simp [selected_columns, hres, appendTail_eq, Except.map, List.append_assoc]
    | error e => simp [selected_columns, hres, Except.map]

theorem resolveCols_error_of_mem (t : Table) {ns : List String} {n : String}
    (hmem : n ∈ ns)
    (hfail : column_for_field t n = Except.error (StoreError.unknownField n)) :
    ∃ m, resolveCols t ns = Except.error (StoreError.unknownField m) := by
  induction ns with
  | nil => cases hmem
  | cons k ks ih =>
    rcases List.mem_cons.mp hmem with h | h
    · subst h
      exact ⟨n, by simp [resolveCols, hfail]⟩
    · cases hck : column_for_field t k with
      | ok c =>
        obtain ⟨m, hm⟩ := ih h
        exact ⟨m, by simp [resolveCols, hck, hm, Except.map]⟩
      | error e =>
        cases e with
        | unknownField m => exact ⟨m, by simp [resolveCols, hck]⟩

/-- Claim C5: a `Select` request containing a name that resolves to neither a
declared column nor a pseudo-column makes the planner return an
unknown-column lookup error to its caller; the `Except.error` result carries
no column list, so no partial output escapes. -/
theorem selected_columns_unknown_name (t : Table) (wik wsc : Bool)
    (names : List String) (parent : Option IdType) (n : String)
    (hmem : n ∈ names) (hnid : n ≠ ID)
    (hfail : column_for_field t n = Except.error (StoreError.unknownField n)) :
    ∃ m, selected_columns t wik wsc (AttributeNames.select names) parent =
      Except.error (StoreError.unknownField m) := by
  have hmem2 : n ∈ sortStrs ((names.dedup).filter (fun n => n != ID)) := by
    rw [mem_sortStrs]
    refine List.mem_filter.mpr ⟨List.mem_dedup.mpr hmem, ?_⟩
    simpa using hnid
  obtain ⟨m, hm⟩ := resolveCols_error_of_mem t hmem2 hfail
  exact ⟨m, by simp [selected_columns, hm]⟩

/-- Closed witness for claim C5: requesting the undeclared attribute `color`
fails with an unknown-column error. -/
theorem selected_columns_unknown_name_witness :
    ∃ m, selected_columns tokenTable false false
        (AttributeNames.select ["color"]) none =
      Except.error (StoreError.unknownField m) :=
  selected_columns_unknown_name tokenTable false false ["color"] none "color"
    (by simp) (by decide) rfl

theorem add_field_eq {t : Table} {c : RelColumn} {st : SqlWireType}
    {e : SelectEntry} (h : add_field t c st = some e) :
    e = SelectEntry.typedField t.nsp t.name c.name st
      (fieldWrap c.is_list c.is_nullable) := by
  unfold add_field at h
  rcases Option.map_eq_some'.mp h with ⟨c2, hc2, he⟩
  unfold Table.column at hc2
  have hbeq := List.find?_some hc2
  have hname : c2.name = c.name := by
    simpa using hbeq
  rw [← he, hname]

theorem entryFor_eq_specEntry {t : Table} {c : RelColumn} {e : SelectEntry}
    (h : entryFor t c = some e) : e = specEntry t c := by
  unfold entryFor at h
  unfold specEntry
  by_cases hname : (c.name == TYPENAME_COL.name) = true
  · rw [if_pos hname] at h
    rw [if_pos hname]
    exact (Option.some_inj.mp h).symm
  · rw [if_neg hname] at h
    rw [if_neg hname]
    cases hct : c.column_type <;> rw [hct] at h <;>
      first
        | exact (Option.some_inj.mp h).symm
        | (rw [add_field_eq h]; rfl)

/-- Claim C6 (amended): whenever `select_cols` succeeds on a column list it
emits exactly one entry per column in the same order, given by the fixed
mapping — the type-name literal for the synthetic column, the text cast for
enum columns, and a typed reference through Boolean to bool, BigDecimal and
BigInt to numeric, Bytes to binary, Int to 32-bit integer, Int8 to 64-bit
integer, Timestamp to timezone-aware timestamp, String and full-text to
text, wrapped per the list/nullable flags. -/
theorem select_cols_entries_spec (t : Table) (cols : List RelColumn)
    (entries : List SelectEntry) (h : select_cols t cols = some entries) :
    entries = cols.map (specEntry t) := by
  induction cols generalizing entries with
  | nil =>
    simp [select_cols] at h
    simp [← h]
  | cons c cs ih =>
    unfold select_cols at h
    cases he : entryFor t c with
    | none => rw [he] at h; cases h
    | some e =>
      cases hes : select_cols t cs with
      | none => rw [he, hes] at h; cases h
      | some es =>
        rw [he, hes] at h
        have : e :: es = entries := Option.some_inj.mp h
        rw [← this, List.map_cons, entryFor_eq_specEntry he, ih es hes]

/-- Closed witness for claim C6's amended theorem on a concrete planner
output. -/
theorem select_cols_entries_spec_witness :
    ([SelectEntry.typedField "sgd1" "token" "id" SqlWireType.text FieldWrap.plain,
      SelectEntry.typedField "sgd1" "token" "name" SqlWireType.text FieldWrap.nullable]
      : List SelectEntry) =
      [idColumn, nameColumn].map (specEntry tokenTable) :=
  select_cols_entries_spec tokenTable [idColumn, nameColumn]
    [SelectEntry.typedField "sgd1" "token" "id" SqlWireType.text FieldWrap.plain,
     SelectEntry.typedField "sgd1" "token" "name" SqlWireType.text FieldWrap.nullable]
    rfl

/-- Counterexample to claim C6 as stated: the planner list produced for a
contract that needs internal keys and a parent id kind contains the parent-id
pseudo-column, on which `select_cols` panics (no entry list is emitted at
all, rather than one entry per column). -/
theorem select_cols_planner_list_counterexample :
    selected_columns tokenTable true false AttributeNames.all (some IdType.string) =
      Except.ok [TYPENAME_COL, idColumn, nameColumn, PARENT_STRING_COL] ∧
    select_cols tokenTable [TYPENAME_COL, idColumn, nameColumn, PARENT_STRING_COL] =
      none :=
  ⟨rfl, rfl⟩

theorem column_for_field_mem {t : Table} {n : String} {c : RelColumn}
    (h : column_for_field t n = Except.ok c) : c ∈ t.columns ++ META_COLS := by
  unfold column_for_field at h
  cases hf : (t.columns ++ META_COLS).find? (fun x => x.name == n) with
  | none => rw [hf] at h; cases h
  | some c2 =>
    rw [hf] at h
    cases h
    exact List.mem_of_find?_eq_some hf

theorem resolveCols_mem (t : Table) {ns : List String} {rs : List RelColumn}
    (h : resolveCols t ns = Except.ok rs) :
    ∀ c ∈ rs, c ∈ t.columns ++ META_COLS := by
  induction ns generalizing rs with
  | nil =>
    simp [resolveCols] at h
    subst h
    intro c hc
    cases hc
  | cons n ns ih =>
    unfold resolveCols at h
    cases hc : column_for_field t n with
    | error e => rw [hc] at h; cases h
    | ok c =>
      rw [hc] at h
      cases hrest : resolveCols t ns with
      | error e => rw [hrest] at h; cases h
      | ok rs2 =>
        rw [hrest] at h
        have : c :: rs2 = rs := by
          simpa [Except.map] using h
        intro x hx
        rw [← this] at hx
        rcases List.mem_cons.mp hx with hx | hx
        · subst hx; exact column_for_field_mem hc
        · exact ih hrest x hx

theorem entryFor_isSome_of_mem {t : Table} {c : RelColumn}
    (h : c ∈ t.columns ++ META_COLS) : (entryFor t c).isSome = true := by
  unfold entryFor
  by_cases hname : (c.name == TYPENAME_COL.name) = true
  · rw [if_pos hname]
    rfl
  · rw [if_neg hname]
    have hcol : (t.column c.name).isSome = true := by
      unfold Table.column
      rw [List.find?_isSome]
      exact ⟨c, h, by simp⟩
    rcases Option.isSome_iff_exists.mp hcol with ⟨c2, hc2⟩
    cases c.column_type <;> simp [add_field, add_enum_field, hc2]

theorem select_cols_total {t : Table} {cols : List RelColumn}
    (h : ∀ c ∈ cols, (entryFor t c).isSome = true) :
    ∃ es, select_cols t cols = some es := by
  induction cols with
  | nil => exact ⟨[], rfl⟩
  | cons c cs ih =>
    obtain ⟨e, he⟩ := Option.isSome_iff_exists.mp (h c (by simp))
    obtain ⟨es, hes⟩ := ih (fun x hx => h x (by simp [hx]))
    exact ⟨e :: es, by simp [select_cols, he, hes]⟩

/-- Claim C9 (amended): applying `select_cols` to a planner output never
panics provided the contract needs no system columns and either needs no
internal keys or supplies no parent id kind — every column in such a list is
the type-name column, a declared column (the primary key included), or the
vid pseudo-column, all of which `Table::column` resolves.  The block,
block-range and parent-id pseudo-columns are NOT resolvable and do make the
`unwrap` panic (see the counterexample). -/
theorem select_cols_succeeds_no_system (t : Table) (wik : Bool)
    (req : AttributeNames) (parent : Option IdType) (cols : List RelColumn)
    (hpk : t.primary_key ∈ t.columns)
    (hpar : wik = false ∨ parent = none)
    (hsel : selected_columns t wik false req parent = Except.ok cols) :
    ∃ es, select_cols t cols = some es := by
  have htail : ∀ cs : List RelColumn, appendTail t wik false parent cs = cs := by
    intro cs
    rw [appendTail_eq]
    rcases hpar with h | h
    · simp [h]
    · simp [h, parentCols]
  have hmem : ∀ c ∈ cols, c ∈ t.columns ++ META_COLS := by
    cases req with
    | all =>
      have : cols = (if wik then [TYPENAME_COL] else []) ++ t.columns := by
        simpa [selected_columns, htail] using hsel.symm
      rw [this]
      intro c hc
      rcases List.mem_append.mp hc with hc | hc
      · cases wik with
        | false => cases hc
        | true =>
          simp at hc
          subst hc
          exact List.mem_append.mpr (Or.inr (by simp [META_COLS]))
      · exact List.mem_append.mpr (Or.inl hc)
    | select names =>
      cases hres : resolveCols t (sortStrs ((names.dedup).filter (fun n => n != ID))) with
      | error e => simp [selected_columns, hres] at hsel
      | ok rs =>
        have : cols = (if wik then [TYPENAME_COL] else []) ++ t.primary_key :: rs := by
          simpa [selected_columns, hres, htail] using hsel.symm
        rw [this]
        intro c hc
        rcases List.mem_append.mp hc with hc | hc
        · cases wik with
          | false => cases hc
          | true =>
            simp at hc
            subst hc
            exact List.mem_append.mpr (Or.inr (by simp [META_COLS]))
        · rcases List.mem_cons.mp hc with hc | hc
          · subst hc; exact List.mem_append.mpr (Or.inl hpk)
          · exact resolveCols_mem t hres c hc
  exact select_cols_total (fun c hc => entryFor_isSome_of_mem (hmem c hc))

/-- Closed witness for claim C9's amended theorem on a concrete planner
output without system columns. -/
theorem select_cols_succeeds_no_system_witness :
    ∃ es, select_cols tokenTable [idColumn, nameColumn] = some es :=
  select_cols_succeeds_no_system tokenTable false AttributeNames.all none
    [idColumn, nameColumn] (by simp [tokenTable]) (Or.inl rfl) rfl

/-- Counterexample to claim C9 as stated: for an immutable table and a
decoding contract that needs system columns, the planner appends the block
pseudo-column, whose name `Table::column` does not resolve (it searches only
the declared columns plus the type-name and vid meta columns), so the
`unwrap` inside `add_field` panics. -/
theorem add_field_unwrap_counterexample :
    selected_columns blockTable false true AttributeNames.all none =
      Except.ok [idColumn, VID_COL, BLOCK_COL] ∧
    select_cols blockTable [idColumn, VID_COL, BLOCK_COL] = none :=
  ⟨rfl, rfl⟩
